import Mathlib

/-!
Shallow embedding of the clinic shift sign-up component
(`src/app/clinicsignup.tsx`): the Shift data model, the availability
projection (`availableShifts`), the store upsert (`addOrUpdateShift`),
the submission handler (`onSubmit`) with its booked-slot clearing loop,
the localStorage load/save paths, and the `formSchema` validation rules.

JavaScript `Date` values are modelled as their millisecond timestamps
(`Nat`, milliseconds since the Unix epoch; the component only ever
creates dates from the calendar picker, so the model is restricted to
timestamps at or after 1970-01-01).  `Date.prototype.toISOString` and
ISO-8601 parsing by `new Date(string)` are modelled over the proleptic
Gregorian calendar in UTC, exactly as ECMAScript specifies them for
this range.
-/

namespace ClinicSignup

/-! ## Calendar model (ECMAScript proleptic Gregorian calendar, UTC) -/

/-- Gregorian leap-year rule. -/
def isLeapYear (y : Nat) : Bool :=
  (y % 4 == 0 && y % 100 != 0) || y % 400 == 0

/-- Number of days in year `y`. -/
def daysInYear (y : Nat) : Nat :=
  if isLeapYear y then 366 else 365

/-- Number of days in month `m` (1-based) of year `y`. -/
def daysInMonth (y m : Nat) : Nat :=
  if m = 2 then (if isLeapYear y then 29 else 28)
  else if m = 4 ∨ m = 6 ∨ m = 9 ∨ m = 11 then 30 else 31

/-- Walk forward from year `y`, consuming whole years from the day count
`n`, returning the final year and the remaining day-of-year.  `fuel`
bounds the recursion; `fuel > n / 365` always suffices. -/
def findYear : Nat → Nat → Nat → Nat × Nat
  | 0, y, n => (y, n)
  | fuel + 1, y, n =>
      if daysInYear y ≤ n then findYear fuel (y + 1) (n - daysInYear y)
      else (y, n)

/-- Walk forward from month `m` of year `y`, consuming whole months from
the day-of-year `doy`, returning the month and 1-based day. -/
def findMonth : Nat → Nat → Nat → Nat → Nat × Nat
  | 0, _, m, doy => (m, doy + 1)
  | fuel + 1, y, m, doy =>
      if daysInMonth y m ≤ doy ∧ m < 12 then
        findMonth fuel y (m + 1) (doy - daysInMonth y m)
      else (m, doy + 1)

/-- Civil date (year, month, day) of day number `n` (days since
1970-01-01). -/
def civilFromDays (n : Nat) : Nat × Nat × Nat :=
  let yd := findYear (n + 1) 1970 n
  let md := findMonth 11 yd.1 1 yd.2
  (yd.1, md.1, md.2)

/-- Sum of `daysInYear` over the `k` consecutive years starting at `y`. -/
def sumYearsFrom (y : Nat) : Nat → Nat
  | 0 => 0
  | k + 1 => daysInYear y + sumYearsFrom (y + 1) k

/-- Days in year `y` strictly before month `m` (1-based). -/
def daysBeforeMonth (y : Nat) : Nat → Nat
  | 0 => 0
  | m + 1 => daysBeforeMonth y m + (if m = 0 then 0 else daysInMonth y m)

/-- Day number (days since 1970-01-01) of the civil date `(y, m, d)`. -/
def daysFromCivil (y m d : Nat) : Nat :=
  sumYearsFrom 1970 (y - 1970) + daysBeforeMonth y m + (d - 1)

/-- Leap years strictly before year `y` (proleptic Gregorian). -/
def leapsBefore (y : Nat) : Nat :=
  (y - 1) / 4 - (y - 1) / 100 + (y - 1) / 400

/-! ## Decimal digit rendering and fixed-width parsing -/

/-- ASCII digit character for `n < 10`. -/
def digitChar (n : Nat) : Char := Char.ofNat (48 + n)

/-- The `w`-digit zero-padded decimal rendering of `n` (assuming
`n < 10 ^ w`), most significant digit first. -/
def padDigits : Nat → Nat → List Char
  | 0, _ => []
  | w + 1, n => digitChar (n / 10 ^ w) :: padDigits w (n % 10 ^ w)

/-- Read exactly `w` decimal digits from the front of `cs`,
accumulating into `acc`; returns the value and the rest. -/
def readFixedAux : Nat → Nat → List Char → Option (Nat × List Char)
  | acc, 0, cs => some (acc, cs)
  | _, _ + 1, [] => none
  | acc, w + 1, c :: cs =>
      if c.isDigit then readFixedAux (acc * 10 + (c.toNat - 48)) w cs else none

/-- Expect the character `c` at the front of the input. -/
def expectChar (c : Char) : List Char → Option (List Char)
  | [] => none
  | x :: xs => if x = c then some xs else none

/-! ## `Date.prototype.toISOString` and ISO-8601 timestamp parsing

ECMAScript renders a timestamp `t` (milliseconds since the epoch, here
restricted to `0 ≤ t <` year 10000) as
`YYYY-MM-DDTHH:mm:ss.sssZ` using the UTC calendar fields.  `new
Date(string)` parses that same format back to the timestamp; the parser
below models `new Date` on the canonical format emitted by
`toISOString` (the only date-string format this component ever stores),
rejecting out-of-range fields as ECMAScript does and, like the rest of
the model, restricting to years 1970–9999. -/

/-- Character list of `toISOString t`. -/
def isoChars (t : Nat) : List Char :=
  padDigits 4 (civilFromDays (t / 86400000)).1 ++ ('-' ::
  (padDigits 2 (civilFromDays (t / 86400000)).2.1 ++ ('-' ::
  (padDigits 2 (civilFromDays (t / 86400000)).2.2 ++ ('T' ::
  (padDigits 2 (t / 3600000 % 24) ++ (':' ::
  (padDigits 2 (t / 60000 % 60) ++ (':' ::
  (padDigits 2 (t / 1000 % 60) ++ ('.' ::
  (padDigits 3 (t % 1000) ++ ['Z']))))))))))))

/-- `Date.prototype.toISOString`, for timestamps below year 10000. -/
def isoString (t : Nat) : String := String.mk (isoChars t)

/-- Read a fixed-width decimal number followed by the separator `sep`. -/
def readSep (w : Nat) (sep : Char) (cs : List Char) : Option (Nat × List Char) :=
  match readFixedAux 0 w cs with
  | none => none
  | some p =>
    match expectChar sep p.2 with
    | none => none
    | some r => some (p.1, r)

/-- Timestamp of an ISO-8601 date-time string in the canonical
`toISOString` format (`new Date(string).getTime()` on that format). -/
def parseIsoDate (s : String) : Option Nat :=
  (readSep 4 '-' s.toList).bind fun yp =>
  (readSep 2 '-' yp.2).bind fun mp =>
  (readSep 2 'T' mp.2).bind fun dp =>
  (readSep 2 ':' dp.2).bind fun hp =>
  (readSep 2 ':' hp.2).bind fun minp =>
  (readSep 2 '.' minp.2).bind fun sp =>
  (readSep 3 'Z' sp.2).bind fun msp =>
  if msp.2 = [] ∧ 1970 ≤ yp.1 ∧ 1 ≤ mp.1 ∧ mp.1 ≤ 12 ∧ 1 ≤ dp.1 ∧
      dp.1 ≤ daysInMonth yp.1 mp.1 ∧ hp.1 ≤ 23 ∧ minp.1 ≤ 59 ∧ sp.1 ≤ 59 then
    some ((((daysFromCivil yp.1 mp.1 dp.1 * 24 + hp.1) * 60 + minp.1) * 60 + sp.1) * 1000 + msp.1)
  else none


/-! ## Data model of the component

`Shift`, `AvailableShift` and the form payload, from
`src/app/clinicsignup.tsx` lines 19-28 and 30-44.  A `Date` is its
millisecond timestamp (see the header comment). -/

/-- `type Shift` (line 19): one calendar day's provider availability. -/
structure Shift where
  date : Nat
  pediatricAvailable : Bool
  adultAvailable : Bool
deriving DecidableEq

/-- `type AvailableShift` (line 25): a bookable (date, provider type)
slot projected from a `Shift`. -/
inductive ProviderType
  | pediatric
  | adult
deriving DecidableEq

structure AvailableShift where
  date : Nat
  providerType : ProviderType
deriving DecidableEq

/-- Default used with `List.getD` when indexing shift collections. -/
def dummyShift : Shift := { date := 0, pediatricAvailable := false, adultAvailable := false }

/-- The availability flag of `s` for a provider type. -/
def shiftFlag (s : Shift) : ProviderType → Bool
  | .pediatric => s.pediatricAvailable
  | .adult => s.adultAvailable

/-- The body of the `flatMap` in `availableShifts` (lines 129-138): emit
a pediatric entry if `pediatricAvailable`, then an adult entry if
`adultAvailable`. -/
def emitShift (shift : Shift) : List AvailableShift :=
  (if shift.pediatricAvailable then [{ date := shift.date, providerType := .pediatric }] else []) ++
  (if shift.adultAvailable then [{ date := shift.date, providerType := .adult }] else [])

/-- `availableShifts` (lines 128-139): project the shift collection to
bookable slots, then filter by the watched provider type when one is
selected (`!watchProviderType || shift.providerType === watchProviderType`). -/
def availableShifts (shifts : List Shift) (watchProviderType : Option ProviderType) :
    List AvailableShift :=
  (shifts.flatMap emitShift).filter (fun shift =>
    match watchProviderType with
    | none => true
    | some p => shift.providerType == p)

/-- `addOrUpdateShift` (lines 178-191): find the first stored shift with
the same timestamp (`shift.date.getTime() === newShift.date.getTime()`);
if found, replace it at its index, otherwise append the new shift. -/
def addOrUpdateShift (shifts : List Shift) (newShift : Shift) : List Shift :=
  match shifts.findIdx? (fun shift => shift.date == newShift.date) with
  | some existingShiftIndex => shifts.set existingShiftIndex newShift
  | none => shifts ++ [newShift]

/-- Validated submission payload (`z.infer<typeof formSchema>`). -/
structure FormValues where
  name : String
  email : String
  shiftDates : List String
  providerType : ProviderType
  notes : Option String
deriving DecidableEq

/-- Body of the clearing loop in `onSubmit` (lines 158-167): serialize
the shift's date to ISO, and clear each availability flag whose slot
identifier (`dateISO-providerType`) occurs in the submitted
`shiftDates`. -/
def clearShift (shiftDates : List String) (shift : Shift) : Shift :=
  let shiftDateString := isoString shift.date
  let shift1 := if shiftDates.contains (shiftDateString ++ "-pediatric") then
      { shift with pediatricAvailable := false } else shift
  if shiftDates.contains (shiftDateString ++ "-adult") then
      { shift1 with adultAvailable := false } else shift1

/-- The `shifts.map(...)` clearing loop of `onSubmit` (lines 158-168). -/
def clearBookedShifts (shifts : List Shift) (shiftDates : List String) : List Shift :=
  shifts.map (clearShift shiftDates)

/-! ## Persisted storage model

`localStorage.getItem("clinicShifts")` yields either no value, a string
that `JSON.parse` rejects (throws), or a string parsing to a JSON
value; the JSON text codec itself is the platform's, so the model
carries the parsed JSON value (`Jval`) in the last case.  Numbers are
restricted to integers: the component never stores numbers (dates are
ISO strings, flags booleans). -/

inductive Jval
  | str (s : String)
  | num (n : Int)
  | bool (b : Bool)
  | null
  | arr (elems : List Jval)
  | obj (fields : List (String × Jval))

inductive StoredValue
  | absent
  | malformed
  | json (j : Jval)

/-- `JSON.stringify(shifts)` as a JSON value: each `Shift` becomes an
object with the `date` serialized by `Date.prototype.toJSON`
(`toISOString`) and the two flags, in insertion order. -/
def jsonOfShifts (shifts : List Shift) : Jval :=
  .arr (shifts.map (fun s => .obj [
    ("date", .str (isoString s.date)),
    ("pediatricAvailable", .bool s.pediatricAvailable),
    ("adultAvailable", .bool s.adultAvailable)]))

/-! ## Component state and the submit handler -/

/-- The pieces of component state that `onSubmit` touches:
`isSubmitting`, `submitSuccess`, `shifts`, and the persisted
`clinicShifts` entry. -/
structure ComponentState where
  isSubmitting : Bool
  submitSuccess : Bool
  shifts : List Shift
  stored : StoredValue

/-- Outcome of the `axios.post` call: any 2xx response resolves
(`success`); a transport error or non-2xx response rejects
(`failure`). -/
inductive PostResult
  | success
  | failure

/-- `onSubmit` (lines 147-176) observed at its end: on a resolved POST,
set `submitSuccess`, clear the booked flags, store the updated
collection in state and in `localStorage`; on a rejected POST, log and
set `submitSuccess` to `false`; in both cases (`finally`) clear
`isSubmitting`. -/
def onSubmit (st : ComponentState) (values : FormValues) (post : PostResult) : ComponentState :=
  match post with
  | .success =>
      let updatedShifts := clearBookedShifts st.shifts values.shiftDates
      { isSubmitting := false, submitSuccess := true, shifts := updatedShifts,
        stored := .json (jsonOfShifts updatedShifts) }
  | .failure =>
      { st with isSubmitting := false, submitSuccess := false }

/-- The render branch at lines 197-204: the success view replaces the
form exactly when `submitSuccess` is set. -/
def rendersSuccessView (st : ComponentState) : Bool := st.submitSuccess


/-! ## Loading persisted shifts

The load effect (lines 95-114): read `clinicShifts`; if present, parse
it and map each element through `(shift) => ({...shift, date: new
Date(shift.date)})`, catching any exception (malformed JSON, or a
parsed value without `.map`) by logging and leaving the collection
empty.  The element mapping never throws: spreading a non-object
contributes no named fields, a missing or unparseable `date` yields an
Invalid Date (modelled as `none`; pre-1970 timestamps are outside this
model), and the flag fields are only ever used as booleans, so they are
modelled by their truthiness. -/

/-- A loaded entry: `date` is `none` for an Invalid Date. -/
structure LoadedShift where
  date : Option Nat
  pediatricAvailable : Bool
  adultAvailable : Bool
deriving DecidableEq

/-- The embedding of a well-formed `Shift` among loaded entries. -/
def Shift.toLoaded (s : Shift) : LoadedShift :=
  { date := some s.date, pediatricAvailable := s.pediatricAvailable,
    adultAvailable := s.adultAvailable }

/-- JavaScript property lookup on a parsed JSON object (last duplicate
key wins, as in `JSON.parse`); `none` is `undefined`. -/
def lookupField (fields : List (String × Jval)) (key : String) : Option Jval :=
  (fields.reverse.find? (fun p => p.1 == key)).map (fun p => p.2)

/-- The own fields of a parsed JSON value: only objects contribute the
named fields read by the loader. -/
def objFields : Jval → List (String × Jval)
  | .obj fields => fields
  | _ => []

/-- `new Date(x).getTime()` for a parsed JSON field value `x`
(`none` = `undefined`): ISO strings parse by the calendar model;
in-range non-negative numbers are timestamps; booleans and `null`
coerce to 1/0; everything else is an Invalid Date here (arrays and
objects coerce through strings in full JavaScript, which no stored
value of this component exercises). -/
def jsDateOf : Option Jval → Option Nat
  | some (.str s) => parseIsoDate s
  | some (.num n) => if 0 ≤ n ∧ n < 253402300800000 then some n.toNat else none
  | some (.bool b) => some (if b then 1 else 0)
  | some .null => some 0
  | some (.arr _) => none
  | some (.obj _) => none
  | none => none

/-- JavaScript truthiness of a parsed JSON field value (`none` =
`undefined`). -/
def truthy : Option Jval → Bool
  | some (.str s) => !(s == "")
  | some (.num n) => !(n == 0)
  | some (.bool b) => b
  | some .null => false
  | some (.arr _) => true
  | some (.obj _) => true
  | none => false

/-- `(shift) => ({...shift, date: new Date(shift.date)})` (lines
101-104), with the availability fields read at their use sites as
booleans. -/
def decodeShiftJson (j : Jval) : LoadedShift :=
  { date := jsDateOf (lookupField (objFields j) "date"),
    pediatricAvailable := truthy (lookupField (objFields j) "pediatricAvailable"),
    adultAvailable := truthy (lookupField (objFields j) "adultAvailable") }

/-- `JSON.parse(storedShifts).map(...)`: a non-array parsed value has no
`.map` and throws (`error`). -/
def decodeShifts : Jval → Except Unit (List LoadedShift)
  | .arr elems => .ok (elems.map decodeShiftJson)
  | _ => .error ()

/-- The load effect (lines 98-109): the resulting shift collection and
whether `console.error` was called.  `absent` skips the branch;
`malformed` throws inside `JSON.parse`; a parsed value goes through
`decodeShifts`, whose failure is also caught. -/
def loadShifts : StoredValue → List LoadedShift × Bool
  | .absent => ([], false)
  | .malformed => ([], true)
  | .json j =>
      match decodeShifts j with
      | .ok parsedShifts => (parsedShifts, false)
      | .error _ => ([], true)

/-! ## Form validation (`formSchema`, lines 30-44)

The raw form state before validation: `providerType` starts
unselected.  Modelled from the spec for the email rule: `z.string().email()`
is enforced by the schema library, whose code is outside this
repository; `isEmail` transcribes the library's email pattern — a
non-empty local part over letters, digits and `_ ' + - .`, not starting
with a dot, without consecutive dots and not ending in a dot or quote,
one `@`, and a domain of alphanumeric-hyphen labels ending in an
alphabetic top-level label of length at least two. -/

structure RawForm where
  name : String
  email : String
  shiftDates : List String
  providerType : Option String
  notes : Option String

def hasDoubleDot : List Char → Bool
  | [] => false
  | [_] => false
  | c1 :: c2 :: rest => (c1 == '.' && c2 == '.') || hasDoubleDot (c2 :: rest)

def isEmailLocalChar (c : Char) : Bool :=
  c.isAlphanum || c == '_' || c == Char.ofNat 39 || c == '+' || c == '-' || c == '.'

def isEmailLocal (cs : List Char) : Bool :=
  !cs.isEmpty && cs.all isEmailLocalChar && !(cs.head? == some '.') && !hasDoubleDot cs &&
  (match cs.getLast? with
   | some c => c.isAlphanum || c == '_' || c == '+' || c == '-'
   | none => false)

def isDomainLabel (cs : List Char) : Bool :=
  match cs with
  | [] => false
  | c :: rest => c.isAlphanum && rest.all (fun x => x.isAlphanum || x == '-')

def isTopLabel (cs : List Char) : Bool :=
  decide (2 ≤ cs.length) && cs.all Char.isAlpha

/-- Split a character list at every separator (like `String.split`). -/
def splitChars (p : Char → Bool) : List Char → List (List Char)
  | [] => [[]]
  | c :: rest =>
      match splitChars p rest with
      | [] => [[c]]
      | g :: gs => if p c then [] :: g :: gs else (c :: g) :: gs

def isEmailDomain (cs : List Char) : Bool :=
  let labels := splitChars (fun c => c == '.') cs
  match labels.getLast? with
  | none => false
  | some top =>
      decide (2 ≤ labels.length) && labels.dropLast.all isDomainLabel && isTopLabel top

def isEmail (s : String) : Bool :=
  match splitChars (fun c => c == '@') s.toList with
  | [localPart, domainPart] => isEmailLocal localPart && isEmailDomain domainPart
  | _ => false

/-- Field-level validation messages, one per schema rule. -/
structure FieldErrors where
  nameError : Option String
  emailError : Option String
  shiftDatesError : Option String
  providerTypeError : Option String
deriving DecidableEq

/-- The four rules of `formSchema` (lines 30-44) with their messages. -/
def formSchemaCheck (f : RawForm) : FieldErrors :=
  { nameError := if f.name.length < 2 then some "Name must be at least 2 characters." else none,
    emailError := if isEmail f.email then none else some "Please enter a valid email address.",
    shiftDatesError := if f.shiftDates.length < 1 then
      some "Please select at least one shift date." else none,
    providerTypeError := if f.providerType = some "pediatric" ∨ f.providerType = some "adult"
      then none else some "Please select a provider type." }

def noFieldErrors : FieldErrors :=
  { nameError := none, emailError := none, shiftDatesError := none, providerTypeError := none }

def toProviderType : Option String → Option ProviderType
  | some "pediatric" => some .pediatric
  | some "adult" => some .adult
  | _ => none

/-- What `form.handleSubmit(onSubmit)` does on submit: run the resolver;
call `onSubmit` with the parsed values only when validation passes,
otherwise surface the field errors inline. -/
inductive SubmitOutcome
  | blocked (errors : FieldErrors)
  | attempted (values : FormValues)

def handleSubmit (f : RawForm) : SubmitOutcome :=
  match toProviderType f.providerType with
  | some pt =>
      if formSchemaCheck f = noFieldErrors then
        .attempted { name := f.name, email := f.email, shiftDates := f.shiftDates,
                     providerType := pt, notes := f.notes }
      else .blocked (formSchemaCheck f)
  | none => .blocked (formSchemaCheck f)

/-- Whether the submit is blocked by validation (no POST is sent). -/
def submitBlocked (f : RawForm) : Bool :=
  match handleSubmit f with
  | .blocked _ => true
  | .attempted _ => false

/-- The spec's four-way invalid raw form: 1-character name, malformed
email, no selected slots, no provider type. -/
def invalidRawForm : RawForm :=
  { name := "A", email := "not-an-email", shiftDates := [], providerType := none, notes := none }

/-! ## Theorems -/

theorem daysInYear_ge (y : Nat) : 365 ≤ daysInYear y := by
  unfold daysInYear; split <;> omega

theorem daysInMonth_le (y m : Nat) : daysInMonth y m ≤ 31 := by
  unfold daysInMonth; split
  · split <;> omega
  · split <;> omega

theorem daysInMonth_pos (y m : Nat) : 1 ≤ daysInMonth y m := by
  unfold daysInMonth; split
  · split <;> omega
  · split <;> omega

theorem findYear_spec (fuel : Nat) : ∀ y n, n < 365 * fuel →
    y ≤ (findYear fuel y n).1 ∧
    (findYear fuel y n).2 < daysInYear (findYear fuel y n).1 ∧
    sumYearsFrom y ((findYear fuel y n).1 - y) + (findYear fuel y n).2 = n := by
  induction fuel with
  | zero => intro y n h; omega
  | succ fuel ih =>
      intro y n h
      by_cases hy : daysInYear y ≤ n
      · have h365 := daysInYear_ge y
        have hrec := ih (y + 1) (n - daysInYear y) (by omega)
        have hstep : findYear (fuel + 1) y n = findYear fuel (y + 1) (n - daysInYear y) := by
          simp [findYear, hy]
        rw [hstep]
        refine ⟨by omega, hrec.2.1, ?_⟩
        have hge : y + 1 ≤ (findYear fuel (y + 1) (n - daysInYear y)).1 := hrec.1
        have hsum := hrec.2.2
        have hk : (findYear fuel (y + 1) (n - daysInYear y)).1 - y =
            ((findYear fuel (y + 1) (n - daysInYear y)).1 - (y + 1)) + 1 := by omega
        rw [hk]
        have : sumYearsFrom y (((findYear fuel (y + 1) (n - daysInYear y)).1 - (y + 1)) + 1) =
            daysInYear y + sumYearsFrom (y + 1) ((findYear fuel (y + 1) (n - daysInYear y)).1 - (y + 1)) := rfl
        rw [this]
        omega
      · have hstep : findYear (fuel + 1) y n = (y, n) := by
          simp [findYear, hy]
        rw [hstep]
        exact ⟨Nat.le_refl y, by simpa using Nat.lt_of_not_le hy, by simp [sumYearsFrom]⟩

theorem daysBeforeMonth_succ (y m : Nat) (hm : 1 ≤ m) :
    daysBeforeMonth y (m + 1) = daysBeforeMonth y m + daysInMonth y m := by
  cases m with
  | zero => omega
  | succ k => simp [daysBeforeMonth]

theorem daysInYear_eq_months (y : Nat) :
    daysInYear y = daysBeforeMonth y 12 + daysInMonth y 12 := by
  by_cases h : isLeapYear y = true <;>
    simp [daysInYear, daysBeforeMonth, daysInMonth, h]

theorem findMonth_spec (fuel : Nat) : ∀ y m doy, 1 ≤ m → m + fuel = 12 →
    daysBeforeMonth y m + doy < daysInYear y →
    1 ≤ (findMonth fuel y m doy).1 ∧ (findMonth fuel y m doy).1 ≤ 12 ∧
    1 ≤ (findMonth fuel y m doy).2 ∧
    (findMonth fuel y m doy).2 ≤ daysInMonth y (findMonth fuel y m doy).1 ∧
    daysBeforeMonth y (findMonth fuel y m doy).1 + ((findMonth fuel y m doy).2 - 1) =
      daysBeforeMonth y m + doy := by
  induction fuel with
  | zero =>
      intro y m doy hm hf hlt
      have hm12 : m = 12 := by omega
      subst hm12
      have := daysInYear_eq_months y
      simp only [findMonth]
      omega
  | succ fuel ih =>
      intro y m doy hm hf hlt
      by_cases hc : daysInMonth y m ≤ doy ∧ m < 12
      · have hstep : findMonth (fuel + 1) y m doy = findMonth fuel y (m + 1) (doy - daysInMonth y m) := by
          simp [findMonth, hc]
        rw [hstep]
        have hsucc := daysBeforeMonth_succ y m hm
        have hrec := ih y (m + 1) (doy - daysInMonth y m) (by omega) (by omega) (by omega)
        refine ⟨hrec.1, hrec.2.1, hrec.2.2.1, hrec.2.2.2.1, ?_⟩
        have := hrec.2.2.2.2
        have hdim := daysInMonth_pos y m
        omega
      · have hstep : findMonth (fuel + 1) y m doy = (m, doy + 1) := by
          simp only [findMonth]
          rw [if_neg hc]
        rw [hstep]
        dsimp only
        have hm12 : m ≤ 12 := by omega
        rcases Decidable.not_and_iff_or_not.mp hc with hdoy | hm'
        · exact ⟨hm, hm12, by omega, by omega, by omega⟩
        · omega

theorem civilFromDays_spec (n : Nat) :
    1970 ≤ (civilFromDays n).1 ∧
    1 ≤ (civilFromDays n).2.1 ∧ (civilFromDays n).2.1 ≤ 12 ∧
    1 ≤ (civilFromDays n).2.2 ∧
    (civilFromDays n).2.2 ≤ daysInMonth (civilFromDays n).1 (civilFromDays n).2.1 ∧
    daysFromCivil (civilFromDays n).1 (civilFromDays n).2.1 (civilFromDays n).2.2 = n ∧
    sumYearsFrom 1970 ((civilFromDays n).1 - 1970) ≤ n := by
  have hy := findYear_spec (n + 1) 1970 n (by omega)
  have hdoy : daysBeforeMonth (findYear (n + 1) 1970 n).1 1 + (findYear (n + 1) 1970 n).2 <
      daysInYear (findYear (n + 1) 1970 n).1 := by
    have h1 : daysBeforeMonth (findYear (n + 1) 1970 n).1 1 = 0 := rfl
    omega
  have hm := findMonth_spec 11 (findYear (n + 1) 1970 n).1 1 (findYear (n + 1) 1970 n).2
    (by omega) (by omega) hdoy
  have hciv : civilFromDays n =
      ((findYear (n + 1) 1970 n).1,
       (findMonth 11 (findYear (n + 1) 1970 n).1 1 (findYear (n + 1) 1970 n).2).1,
       (findMonth 11 (findYear (n + 1) 1970 n).1 1 (findYear (n + 1) 1970 n).2).2) := rfl
  rw [hciv]
  simp only
  have h1 : daysBeforeMonth (findYear (n + 1) 1970 n).1 1 = 0 := rfl
  refine ⟨hy.1, hm.1, hm.2.1, hm.2.2.1, hm.2.2.2.1, ?_, by omega⟩
  unfold daysFromCivil
  omega

theorem isLeapYear_iff (y : Nat) :
    isLeapYear y = true ↔ ((y % 4 = 0 ∧ y % 100 ≠ 0) ∨ y % 400 = 0) := by
  simp [isLeapYear, Bool.or_eq_true, Bool.and_eq_true, beq_iff_eq, bne_iff_ne]

theorem leapsBefore_succ (y : Nat) (hy : 1 ≤ y) :
    leapsBefore (y + 1) = leapsBefore y + (if isLeapYear y then 1 else 0) := by
  by_cases h : isLeapYear y = true
  · rw [if_pos h]
    have := (isLeapYear_iff y).mp h
    unfold leapsBefore
    omega
  · rw [if_neg h]
    have hnot : ¬ ((y % 4 = 0 ∧ y % 100 ≠ 0) ∨ y % 400 = 0) := fun hc => h ((isLeapYear_iff y).mpr hc)
    unfold leapsBefore
    omega

theorem sumYearsFrom_closed (k : Nat) : ∀ y, 1 ≤ y →
    sumYearsFrom y k + leapsBefore y = 365 * k + leapsBefore (y + k) := by
  induction k with
  | zero => intro y _; simp [sumYearsFrom]
  | succ k ih =>
      intro y hy
      have hstep := leapsBefore_succ y hy
      have hrec := ih (y + 1) (by omega)
      have hdef : sumYearsFrom y (k + 1) = daysInYear y + sumYearsFrom (y + 1) k := rfl
      have hyk : y + 1 + k = y + (k + 1) := by omega
      rw [hyk] at hrec
      rw [hdef]
      by_cases h : isLeapYear y = true
      · rw [if_pos h] at hstep
        have hdy : daysInYear y = 366 := by simp [daysInYear, h]
        omega
      · rw [if_neg h] at hstep
        have hdy : daysInYear y = 365 := by simp [daysInYear, h]
        omega

theorem sumYearsFrom_split (a : Nat) : ∀ y b,
    sumYearsFrom y (a + b) = sumYearsFrom y a + sumYearsFrom (y + a) b := by
  induction a with
  | zero => intro y b; simp [sumYearsFrom]
  | succ a ih =>
      intro y b
      have h1 : a + 1 + b = (a + b) + 1 := by omega
      rw [h1]
      have h2 : sumYearsFrom y ((a + b) + 1) = daysInYear y + sumYearsFrom (y + 1) (a + b) := rfl
      have h3 : sumYearsFrom y (a + 1) = daysInYear y + sumYearsFrom (y + 1) a := rfl
      rw [h2, h3, ih (y + 1) b]
      have h4 : y + 1 + a = y + (a + 1) := by omega
      rw [h4]
      omega

theorem sumYearsFrom_1970_8030 : sumYearsFrom 1970 8030 = 2932897 := by
  have h := sumYearsFrom_closed 8030 1970 (by omega)
  have h1 : leapsBefore 1970 = 477 := by norm_num [leapsBefore]
  have h2 : leapsBefore (1970 + 8030) = 2424 := by norm_num [leapsBefore]
  omega

theorem civil_year_le (n : Nat) (h : n ≤ 2932896) : (civilFromDays n).1 ≤ 9999 := by
  have hs := civilFromDays_spec n
  by_contra hge
  have hY : 10000 ≤ (civilFromDays n).1 := by omega
  have hk : (civilFromDays n).1 - 1970 = 8030 + ((civilFromDays n).1 - 10000) := by omega
  have := sumYearsFrom_split 8030 1970 ((civilFromDays n).1 - 10000)
  rw [hk] at hs
  have h8030 := sumYearsFrom_1970_8030
  omega

theorem digitChar_isDigit (r : Nat) (h : r < 10) :
    (digitChar r).isDigit = true ∧ (digitChar r).toNat = 48 + r := by
  interval_cases r <;> exact ⟨by decide, by decide⟩

theorem readFixedAux_pad (w : Nat) : ∀ n acc rest, n < 10 ^ w →
    readFixedAux acc w (padDigits w n ++ rest) = some (acc * 10 ^ w + n, rest) := by
  induction w with
  | zero =>
      intro n acc rest h
      have hn : n = 0 := by simpa using h
      subst hn
      simp [padDigits, readFixedAux]
  | succ w ih =>
      intro n acc rest h
      have hpow : 10 ^ (w + 1) = 10 ^ w * 10 := pow_succ 10 w
      have hppos : 0 < 10 ^ w := Nat.pos_pow_of_pos w (by omega)
      have hq : n / 10 ^ w < 10 := by
        rw [Nat.div_lt_iff_lt_mul hppos]
        omega
      have hd := digitChar_isDigit (n / 10 ^ w) hq
      have hstep : readFixedAux acc (w + 1) (padDigits (w + 1) n ++ rest) =
          readFixedAux (acc * 10 + (n / 10 ^ w)) w (padDigits w (n % 10 ^ w) ++ rest) := by
        simp [padDigits, readFixedAux, hd.1, hd.2]
      rw [hstep, ih (n % 10 ^ w) (acc * 10 + n / 10 ^ w) rest (Nat.mod_lt n hppos)]
      have hsplit : n / 10 ^ w * 10 ^ w + n % 10 ^ w = n := by
        rw [Nat.mul_comm]; exact Nat.div_add_mod n (10 ^ w)
      have : (acc * 10 + n / 10 ^ w) * 10 ^ w + n % 10 ^ w = acc * 10 ^ (w + 1) + n := by
        rw [Nat.add_mul, hpow, Nat.add_assoc, hsplit]
        ring_nf
      rw [this]

theorem expectChar_cons (c : Char) (xs : List Char) : expectChar c (c :: xs) = some xs := by
  simp [expectChar]

theorem readSep_pad (w n : Nat) (sep : Char) (rest : List Char) (h : n < 10 ^ w) :
    readSep w sep (padDigits w n ++ sep :: rest) = some (n, rest) := by
  unfold readSep
  rw [readFixedAux_pad w n 0 (sep :: rest) h]
  simp [expectChar_cons]

theorem parseIsoDate_isoString (t : Nat) (h : t < 253402300800000) :
    parseIsoDate (isoString t) = some t := by
  have hdays : t / 86400000 ≤ 2932896 := by omega
  have hspec := civilFromDays_spec (t / 86400000)
  have hyle := civil_year_le (t / 86400000) hdays
  have hdm := daysInMonth_le (civilFromDays (t / 86400000)).1 (civilFromDays (t / 86400000)).2.1
  have htl : (isoString t).toList = isoChars t := rfl
  unfold parseIsoDate
  rw [htl]
  unfold isoChars
  rw [readSep_pad 4 (civilFromDays (t / 86400000)).1 '-' _ (by norm_num; omega)]
  simp only [Option.some_bind]
  rw [readSep_pad 2 (civilFromDays (t / 86400000)).2.1 '-' _ (by norm_num; omega)]
  simp only [Option.some_bind]
  rw [readSep_pad 2 (civilFromDays (t / 86400000)).2.2 'T' _ (by norm_num; omega)]
  simp only [Option.some_bind]
  rw [readSep_pad 2 (t / 3600000 % 24) ':' _ (by norm_num; omega)]
  simp only [Option.some_bind]
  rw [readSep_pad 2 (t / 60000 % 60) ':' _ (by norm_num; omega)]
  simp only [Option.some_bind]
  rw [readSep_pad 2 (t / 1000 % 60) '.' _ (by norm_num; omega)]
  simp only [Option.some_bind]
  rw [readSep_pad 3 (t % 1000) 'Z' _ (by norm_num; omega)]
  simp only [Option.some_bind]
  rw [if_pos]
  · congr 1
    omega
  · refine ⟨trivial, hspec.1, hspec.2.1, hspec.2.2.1, hspec.2.2.2.1, hspec.2.2.2.2.1, ?_, ?_, ?_⟩ <;> omega

/-! ## The upsert (`addOrUpdateShift`) -/

theorem addOrUpdateShift_nil (x : Shift) : addOrUpdateShift [] x = [x] := rfl

theorem addOrUpdateShift_cons (s : Shift) (l : List Shift) (x : Shift) :
    addOrUpdateShift (s :: l) x =
      if s.date = x.date then x :: l else s :: addOrUpdateShift l x := by
  unfold addOrUpdateShift
  rw [List.findIdx?_cons]
  by_cases h : s.date = x.date
  · have hb : (s.date == x.date) = true := by simp [h]
    simp [hb, h]
  · have hb : (s.date == x.date) = false := by simp [h]
    rw [hb]
    simp only [Bool.false_eq_true, if_false, List.findIdx?_succ, if_neg h]
    cases ho : List.findIdx? (fun shift => shift.date == x.date) l with
    | none => simp [ho]
    | some j => simp [ho, List.set_cons_succ]

theorem addOrUpdateShift_all_ne (x : Shift) : ∀ shifts : List Shift,
    (∀ s ∈ shifts, s.date ≠ x.date) → addOrUpdateShift shifts x = shifts ++ [x] := by
  intro shifts
  induction shifts with
  | nil => intro _; rfl
  | cons s t ih =>
      intro hne
      rw [addOrUpdateShift_cons, if_neg (hne s (by simp)), List.cons_append,
        ih (fun a ha => hne a (by simp [ha]))]

theorem addOrUpdateShift_found (x old : Shift) (post : List Shift) (hold : old.date = x.date) :
    ∀ pre : List Shift, (∀ s ∈ pre, s.date ≠ x.date) →
      addOrUpdateShift (pre ++ old :: post) x = pre ++ x :: post := by
  intro pre
  induction pre with
  | nil => intro _; rw [List.nil_append, addOrUpdateShift_cons, if_pos hold, List.nil_append]
  | cons p ps ih =>
      intro hpre
      rw [List.cons_append, addOrUpdateShift_cons, if_neg (hpre p (by simp)),
        ih (fun s hs => hpre s (by simp [hs])), List.cons_append]

theorem addOrUpdateShift_date_mem (x : Shift) : ∀ (l : List Shift) (d : Nat),
    d ∈ (addOrUpdateShift l x).map Shift.date → d ∈ l.map Shift.date ∨ d = x.date := by
  intro l
  induction l with
  | nil =>
      intro d hd
      rw [addOrUpdateShift_nil] at hd
      simp at hd
      exact Or.inr hd
  | cons s t ih =>
      intro d hd
      rw [addOrUpdateShift_cons] at hd
      by_cases h : s.date = x.date
      · rw [if_pos h] at hd
        simp at hd
        rcases hd with hd | hd
        · exact Or.inr hd
        · exact Or.inl (by simp [hd])
      · rw [if_neg h] at hd
        simp at hd
        rcases hd with hd | hd
        · exact Or.inl (by simp [hd])
        · rcases ih d (by simpa using hd) with hm | hm
          · exact Or.inl (by simp; right; simpa using hm)
          · exact Or.inr hm

theorem addOrUpdateShift_nodup (x : Shift) : ∀ shifts : List Shift,
    (shifts.map Shift.date).Nodup → ((addOrUpdateShift shifts x).map Shift.date).Nodup := by
  intro shifts
  induction shifts with
  | nil => intro _; simp [addOrUpdateShift_nil]
  | cons s t ih =>
      intro hnd
      rw [List.map_cons, List.nodup_cons] at hnd
      rw [addOrUpdateShift_cons]
      by_cases h : s.date = x.date
      · rw [if_pos h]
        rw [List.map_cons, List.nodup_cons]
        exact ⟨h ▸ hnd.1, hnd.2⟩
      · rw [if_neg h]
        rw [List.map_cons, List.nodup_cons]
        refine ⟨?_, ih hnd.2⟩
        intro hmem
        rcases addOrUpdateShift_date_mem x t s.date hmem with hm | hm
        · exact hnd.1 hm
        · exact h hm

/-! ## The clearing loop -/

theorem clearShift_date (ds : List String) (s : Shift) : (clearShift ds s).date = s.date := by
  simp only [clearShift]
  split <;> split <;> rfl

theorem clearBookedShifts_map_date (shifts : List Shift) (ds : List String) :
    (clearBookedShifts shifts ds).map Shift.date = shifts.map Shift.date := by
  unfold clearBookedShifts
  rw [List.map_map]
  exact List.map_congr_left (fun s _ => clearShift_date ds s)

/-- **C4.**  `addOrUpdateShift` is idempotent: upserting the same Shift
value twice yields the same stored collection as upserting it once. -/
theorem addOrUpdateShift_idem (shifts : List Shift) (x : Shift) :
    addOrUpdateShift (addOrUpdateShift shifts x) x = addOrUpdateShift shifts x := by
  induction shifts with
  | nil =>
      rw [addOrUpdateShift_nil, addOrUpdateShift_cons, if_pos rfl]
  | cons s l ih =>
      rw [addOrUpdateShift_cons]
      by_cases h : s.date = x.date
      · rw [if_pos h, addOrUpdateShift_cons, if_pos rfl]
      · rw [if_neg h, addOrUpdateShift_cons, if_neg h, ih]

/-- **C6.**  `addOrUpdateShift shifts x` replaces the first stored Shift
whose date equals `x.date` by exact timestamp equality with `x`
entirely, and appends `x` when no stored Shift has that exact
timestamp; in particular a Shift on the same calendar day (same day
number since the epoch) but a different time of day is not replaced —
the new Shift is appended alongside it. -/
theorem addOrUpdateShift_replace_or_append (shifts : List Shift) (x : Shift) :
    ((∀ s ∈ shifts, s.date ≠ x.date) → addOrUpdateShift shifts x = shifts ++ [x]) ∧
    (∀ pre old post, shifts = pre ++ old :: post → (∀ s ∈ pre, s.date ≠ x.date) →
      old.date = x.date → addOrUpdateShift shifts x = pre ++ x :: post) ∧
    (∀ s : Shift, s.date ≠ x.date → s.date / 86400000 = x.date / 86400000 →
      addOrUpdateShift [s] x = [s, x]) := by
  refine ⟨addOrUpdateShift_all_ne x shifts, ?_, ?_⟩
  · intro pre old post heq hpre hold
    subst heq
    exact addOrUpdateShift_found x old post hold pre hpre
  · intro s hne _
    rw [addOrUpdateShift_all_ne x [s] (by simpa using hne)]
    rfl

/-- Witness for C6: the store holds a Shift at 2024-06-01T00:00Z; an
admin upsert at 2024-06-01T12:00Z (same calendar day, different time)
appends rather than replaces, while an upsert at the exact stored
timestamp replaces the entry wholesale. -/
theorem addOrUpdateShift_replace_or_append_witness :
    addOrUpdateShift [{ date := 1717200000000, pediatricAvailable := true, adultAvailable := false }]
        { date := 1717243200000, pediatricAvailable := false, adultAvailable := true } =
      [{ date := 1717200000000, pediatricAvailable := true, adultAvailable := false },
       { date := 1717243200000, pediatricAvailable := false, adultAvailable := true }] ∧
    addOrUpdateShift [{ date := 1717200000000, pediatricAvailable := true, adultAvailable := false }]
        { date := 1717200000000, pediatricAvailable := false, adultAvailable := true } =
      [{ date := 1717200000000, pediatricAvailable := false, adultAvailable := true }] :=
  ⟨(addOrUpdateShift_replace_or_append
      [{ date := 1717200000000, pediatricAvailable := true, adultAvailable := false }]
      { date := 1717243200000, pediatricAvailable := false, adultAvailable := true }).2.2
      { date := 1717200000000, pediatricAvailable := true, adultAvailable := false }
      (by decide) (by decide),
   (addOrUpdateShift_replace_or_append
      [{ date := 1717200000000, pediatricAvailable := true, adultAvailable := false }]
      { date := 1717200000000, pediatricAvailable := false, adultAvailable := true }).2.1
      [] { date := 1717200000000, pediatricAvailable := true, adultAvailable := false } []
      rfl (by simp) rfl⟩

/-- **C7.**  The at-most-one-Shift-per-date invariant (the stored
dates, compared by exact timestamp, are pairwise distinct) holds of the
empty initial collection and is preserved both by `addOrUpdateShift`
and by the post-submission clearing loop. -/
theorem shiftStore_unique_dates (shifts : List Shift) (x : Shift) (ds : List String) :
    (([] : List Shift).map Shift.date).Nodup ∧
    ((shifts.map Shift.date).Nodup → ((addOrUpdateShift shifts x).map Shift.date).Nodup) ∧
    ((shifts.map Shift.date).Nodup → ((clearBookedShifts shifts ds).map Shift.date).Nodup) :=
  ⟨List.nodup_nil, addOrUpdateShift_nodup x shifts,
   fun hnd => (clearBookedShifts_map_date shifts ds).symm ▸ hnd⟩

/-- Witness for C7 at a two-Shift store with distinct dates. -/
theorem shiftStore_unique_dates_witness :
    ((addOrUpdateShift
        [{ date := 1717200000000, pediatricAvailable := true, adultAvailable := false },
         { date := 1717286400000, pediatricAvailable := false, adultAvailable := true }]
        { date := 1717200000000, pediatricAvailable := true, adultAvailable := true }).map
      Shift.date).Nodup ∧
    ((clearBookedShifts
        [{ date := 1717200000000, pediatricAvailable := true, adultAvailable := false },
         { date := 1717286400000, pediatricAvailable := false, adultAvailable := true }]
        ["2024-06-01T00:00:00.000Z-pediatric"]).map Shift.date).Nodup :=
  ⟨(shiftStore_unique_dates
      [{ date := 1717200000000, pediatricAvailable := true, adultAvailable := false },
       { date := 1717286400000, pediatricAvailable := false, adultAvailable := true }]
      { date := 1717200000000, pediatricAvailable := true, adultAvailable := true }
      ["2024-06-01T00:00:00.000Z-pediatric"]).2.1 (by decide),
   (shiftStore_unique_dates
      [{ date := 1717200000000, pediatricAvailable := true, adultAvailable := false },
       { date := 1717286400000, pediatricAvailable := false, adultAvailable := true }]
      { date := 1717200000000, pediatricAvailable := true, adultAvailable := true }
      ["2024-06-01T00:00:00.000Z-pediatric"]).2.2 (by decide)⟩

theorem clearShift_ped (ds : List String) (s : Shift)
    (h : ds.contains (isoString s.date ++ "-pediatric") = true) :
    (clearShift ds s).pediatricAvailable = false := by
  simp only [clearShift]
  rw [if_pos h]
  split <;> rfl

theorem clearShift_adult (ds : List String) (s : Shift)
    (h : ds.contains (isoString s.date ++ "-adult") = true) :
    (clearShift ds s).adultAvailable = false := by
  simp only [clearShift]
  rw [if_pos h]

theorem clearShift_noop (ds : List String) (s : Shift)
    (h1 : ds.contains (isoString s.date ++ "-pediatric") = false)
    (h2 : ds.contains (isoString s.date ++ "-adult") = false) :
    clearShift ds s = s := by
  simp only [clearShift]
  rw [if_neg (by rw [h2]; simp), if_neg (by rw [h1]; simp)]

theorem getD_map_lt {α β : Type} (f : α → β) (d : α) (d2 : β) :
    ∀ (l : List α) (i : Nat), i < l.length → (l.map f).getD i d2 = f (l.getD i d) := by
  intro l
  induction l with
  | nil => intro i h; simp at h
  | cons a t ih =>
      intro i h
      cases i with
      | zero => rfl
      | succ j =>
          simp only [List.map_cons, List.getD_cons_succ]
          exact ih j (by simpa using h)

/-- **C10.**  The post-submission clearing loop changes only
availability flags: it preserves the length of the collection and the
(ordered) dates of every Shift; a Shift whose ISO date string appears
with neither provider-type suffix in the submitted `shiftDates` is left
entirely unchanged, and when no stored Shift is named at all the
collection comes back identical. -/
theorem clearBookedShifts_frame (shifts : List Shift) (ds : List String) :
    (clearBookedShifts shifts ds).length = shifts.length ∧
    (clearBookedShifts shifts ds).map Shift.date = shifts.map Shift.date ∧
    (∀ i, i < shifts.length →
      ds.contains (isoString (shifts.getD i dummyShift).date ++ "-pediatric") = false →
      ds.contains (isoString (shifts.getD i dummyShift).date ++ "-adult") = false →
      (clearBookedShifts shifts ds).getD i dummyShift = shifts.getD i dummyShift) ∧
    ((∀ s ∈ shifts, ds.contains (isoString s.date ++ "-pediatric") = false ∧
        ds.contains (isoString s.date ++ "-adult") = false) →
      clearBookedShifts shifts ds = shifts) := by
  refine ⟨by simp [clearBookedShifts], clearBookedShifts_map_date shifts ds, ?_, ?_⟩
  · intro i hi h1 h2
    unfold clearBookedShifts
    rw [getD_map_lt (clearShift ds) dummyShift dummyShift shifts i hi]
    exact clearShift_noop ds _ h1 h2
  · intro hall
    unfold clearBookedShifts
    have hcongr : shifts.map (clearShift ds) = shifts.map id :=
      List.map_congr_left (fun s hs => clearShift_noop ds s (hall s hs).1 (hall s hs).2)
    rw [hcongr, List.map_id]

/-- Witness for C10: a submission naming only an unmatched 2030 slot
leaves a 2024 store entry (both flags set) byte-for-byte identical. -/
theorem clearBookedShifts_frame_witness :
    clearBookedShifts [{ date := 1717200000000, pediatricAvailable := true, adultAvailable := true }]
        ["2030-01-01T00:00:00.000Z-pediatric"] =
      [{ date := 1717200000000, pediatricAvailable := true, adultAvailable := true }] :=
  (clearBookedShifts_frame
      [{ date := 1717200000000, pediatricAvailable := true, adultAvailable := true }]
      ["2030-01-01T00:00:00.000Z-pediatric"]).2.2.2 (by decide)

/-- **C2.**  On a successful submission, for every stored Shift whose
date serialized to ISO-8601 and suffixed with `-pediatric`
(resp. `-adult`) occurs in the submitted `shiftDates`, the
corresponding availability flag of that Shift (located by exact
ISO-string equality) is cleared to `false`, and the updated collection
is written to persistent storage. -/
theorem onSubmit_success_clears (st : ComponentState) (values : FormValues) (i : Nat)
    (hi : i < st.shifts.length) :
    (onSubmit st values .success).shifts.length = st.shifts.length ∧
    (values.shiftDates.contains
        (isoString (st.shifts.getD i dummyShift).date ++ "-pediatric") = true →
      ((onSubmit st values .success).shifts.getD i dummyShift).pediatricAvailable = false) ∧
    (values.shiftDates.contains
        (isoString (st.shifts.getD i dummyShift).date ++ "-adult") = true →
      ((onSubmit st values .success).shifts.getD i dummyShift).adultAvailable = false) ∧
    (onSubmit st values .success).stored =
      .json (jsonOfShifts (onSubmit st values .success).shifts) := by
  refine ⟨by simp [onSubmit, clearBookedShifts], ?_, ?_, rfl⟩
  · intro h
    show ((clearBookedShifts st.shifts values.shiftDates).getD i dummyShift).pediatricAvailable = false
    unfold clearBookedShifts
    rw [getD_map_lt (clearShift values.shiftDates) dummyShift dummyShift st.shifts i hi]
    exact clearShift_ped values.shiftDates _ h
  · intro h
    show ((clearBookedShifts st.shifts values.shiftDates).getD i dummyShift).adultAvailable = false
    unfold clearBookedShifts
    rw [getD_map_lt (clearShift values.shiftDates) dummyShift dummyShift st.shifts i hi]
    exact clearShift_adult values.shiftDates _ h

/-- Witness for C2, the spec's scenario: a successful submission with
`shiftDates = ["2024-06-01T00:00:00.000Z-pediatric"]` against a store
holding that date with `pediatricAvailable = true` clears the flag. -/
theorem onSubmit_success_clears_witness :
    ((onSubmit
        { isSubmitting := false, submitSuccess := false,
          shifts := [{ date := 1717200000000, pediatricAvailable := true, adultAvailable := false }],
          stored := .absent }
        { name := "Dr. Jane Doe", email := "doctor@example.com",
          shiftDates := ["2024-06-01T00:00:00.000Z-pediatric"], providerType := .pediatric,
          notes := none } .success).shifts.getD 0 dummyShift).pediatricAvailable = false :=
  (onSubmit_success_clears
      { isSubmitting := false, submitSuccess := false,
        shifts := [{ date := 1717200000000, pediatricAvailable := true, adultAvailable := false }],
        stored := .absent }
      { name := "Dr. Jane Doe", email := "doctor@example.com",
        shiftDates := ["2024-06-01T00:00:00.000Z-pediatric"], providerType := .pediatric,
        notes := none } 0 (by decide)).2.1 (by decide)

/-- **C3.**  On a failed POST (network error or non-2xx), `onSubmit`
clears the pending flag, leaves the success flag unset (so the success
view does not render), and leaves the shift collection and its
persisted form exactly as they were. -/
theorem onSubmit_failure_state (st : ComponentState) (values : FormValues) :
    (onSubmit st values .failure).isSubmitting = false ∧
    (onSubmit st values .failure).submitSuccess = false ∧
    rendersSuccessView (onSubmit st values .failure) = false ∧
    (onSubmit st values .failure).shifts = st.shifts ∧
    (onSubmit st values .failure).stored = st.stored :=
  ⟨rfl, rfl, rfl, rfl, rfl⟩

/-! ## The availability projection -/

theorem emitShift_mem (a : AvailableShift) (s : Shift) :
    a ∈ emitShift s ↔
      (a = { date := s.date, providerType := .pediatric } ∧ s.pediatricAvailable = true) ∨
      (a = { date := s.date, providerType := .adult } ∧ s.adultAvailable = true) := by
  unfold emitShift
  cases hp : s.pediatricAvailable <;> cases ha : s.adultAvailable <;> simp

theorem emitShift_count_self (s : Shift) (p : ProviderType) :
    (emitShift s).count { date := s.date, providerType := p } =
      if shiftFlag s p then 1 else 0 := by
  cases p <;> cases hp : s.pediatricAvailable <;> cases ha : s.adultAvailable <;>
    simp [emitShift, shiftFlag, hp, ha, List.count_cons, List.count_append, List.count_nil]

theorem mem_flatMap_emit_date (t : List Shift) (a : AvailableShift)
    (h : a ∈ t.flatMap emitShift) : a.date ∈ t.map Shift.date := by
  rw [List.mem_flatMap] at h
  obtain ⟨s, hs, hemit⟩ := h
  rcases (emitShift_mem a s).mp hemit with ⟨heq, _⟩ | ⟨heq, _⟩ <;> subst heq <;>
    exact List.mem_map_of_mem Shift.date hs

theorem count_flatMap_emit_zero (t : List Shift) (d : Nat) (p : ProviderType)
    (h : d ∉ t.map Shift.date) :
    (t.flatMap emitShift).count { date := d, providerType := p } = 0 := by
  rw [List.count_eq_zero]
  intro hmem
  exact h (by simpa using mem_flatMap_emit_date t _ hmem)

theorem flatMap_emit_count (p : ProviderType) : ∀ shifts : List Shift,
    (shifts.map Shift.date).Nodup → ∀ s ∈ shifts,
    (shifts.flatMap emitShift).count { date := s.date, providerType := p } =
      if shiftFlag s p then 1 else 0 := by
  intro shifts
  induction shifts with
  | nil => intro _ s hs; simp at hs
  | cons a t ih =>
      intro hnd s hs
      rw [List.map_cons, List.nodup_cons] at hnd
      rw [List.flatMap_cons, List.count_append]
      rcases List.mem_cons.mp hs with heq | hmem
      · subst heq
        rw [emitShift_count_self, count_flatMap_emit_zero t s.date p hnd.1]
        omega
      · have hne : s.date ≠ a.date := by
          intro hd
          exact hnd.1 (hd ▸ List.mem_map_of_mem Shift.date hmem)
        have hza : (emitShift a).count { date := s.date, providerType := p } = 0 := by
          rw [List.count_eq_zero]
          intro hin
          rcases (emitShift_mem _ a).mp hin with ⟨heq, _⟩ | ⟨heq, _⟩ <;>
            (simp [AvailableShift.mk.injEq] at heq; exact hne heq.1)
        rw [hza, ih hnd.2 s hmem]
        omega

theorem availableShifts_none (shifts : List Shift) :
    availableShifts shifts none = shifts.flatMap emitShift := by
  unfold availableShifts
  apply List.filter_eq_self.mpr
  intro a _
  rfl

/-- **C1.**  Every entry of the projection `availableShifts shifts f`
comes from a Shift in the collection whose availability flag for that
entry's provider type is `true` (and matches the filter when one is
set); and under the store invariant (pairwise-distinct dates), each
(Shift, enabled-flag) pair contributes exactly one entry to the
unfiltered projection — a disabled flag contributes none. -/
theorem availableShifts_entries (shifts : List Shift) (f : Option ProviderType) :
    (∀ a ∈ availableShifts shifts f,
      (∃ s ∈ shifts, a.date = s.date ∧ shiftFlag s a.providerType = true) ∧
      (∀ p, f = some p → a.providerType = p)) ∧
    ((shifts.map Shift.date).Nodup → ∀ s ∈ shifts, ∀ p : ProviderType,
      (availableShifts shifts none).count { date := s.date, providerType := p } =
        if shiftFlag s p then 1 else 0) := by
  constructor
  · intro a ha
    unfold availableShifts at ha
    rw [List.mem_filter] at ha
    obtain ⟨hmem, hpred⟩ := ha
    rw [List.mem_flatMap] at hmem
    obtain ⟨s, hs, hemit⟩ := hmem
    constructor
    · refine ⟨s, hs, ?_⟩
      rcases (emitShift_mem a s).mp hemit with ⟨heq, hflag⟩ | ⟨heq, hflag⟩ <;> subst heq <;>
        simp [shiftFlag, hflag]
    · intro p hf
      subst hf
      simpa using hpred
  · intro hnd s hs p
    rw [availableShifts_none]
    exact flatMap_emit_count p shifts hnd s hs

/-- Witness for C1, the spec's scenario: one Shift on 2024-06-01 with
only `pediatricAvailable` set projects to exactly one pediatric entry
and no adult entry. -/
theorem availableShifts_entries_witness :
    (availableShifts [{ date := 1717200000000, pediatricAvailable := true, adultAvailable := false }]
        none).count { date := 1717200000000, providerType := .pediatric } = 1 ∧
    (availableShifts [{ date := 1717200000000, pediatricAvailable := true, adultAvailable := false }]
        none).count { date := 1717200000000, providerType := .adult } = 0 := by
  have h := (availableShifts_entries
      [{ date := 1717200000000, pediatricAvailable := true, adultAvailable := false }] none).2
      (by decide)
  have h1 := h { date := 1717200000000, pediatricAvailable := true, adultAvailable := false }
      (by simp) ProviderType.pediatric
  have h2 := h { date := 1717200000000, pediatricAvailable := true, adultAvailable := false }
      (by simp) ProviderType.adult
  simp only [shiftFlag] at h1 h2
  exact ⟨by simpa using h1, by simpa using h2⟩

/-! ## Persistence round trip and load failures -/

theorem decodeShiftJson_save (s : Shift) (h : s.date < 253402300800000) :
    decodeShiftJson (.obj [("date", .str (isoString s.date)),
      ("pediatricAvailable", .bool s.pediatricAvailable),
      ("adultAvailable", .bool s.adultAvailable)]) = Shift.toLoaded s := by
  unfold decodeShiftJson objFields lookupField Shift.toLoaded
  simp [jsDateOf, truthy, List.find?, parseIsoDate_isoString s.date h]

/-- **C5.**  Saving a Shift collection (dates serialized to ISO-8601)
and loading it back yields the same collection: every date string
parses back to the exact stored timestamp, the flags survive, nothing
is logged, and the embedding of well-formed shifts among loaded entries
is injective. -/
theorem load_save_roundtrip (shifts : List Shift)
    (h : ∀ s ∈ shifts, s.date < 253402300800000) :
    loadShifts (.json (jsonOfShifts shifts)) = (shifts.map Shift.toLoaded, false) ∧
    (∀ s1 s2 : Shift, Shift.toLoaded s1 = Shift.toLoaded s2 → s1 = s2) := by
  constructor
  · have hdec : loadShifts (.json (jsonOfShifts shifts)) =
        ((shifts.map (fun s => Jval.obj [("date", .str (isoString s.date)),
          ("pediatricAvailable", .bool s.pediatricAvailable),
          ("adultAvailable", .bool s.adultAvailable)])).map decodeShiftJson, false) := rfl
    rw [hdec, List.map_map]
    congr 1
    exact List.map_congr_left (fun s hs => decodeShiftJson_save s (h s hs))
  · intro s1 s2 heq
    cases s1
    cases s2
    simp only [Shift.toLoaded, LoadedShift.mk.injEq, Option.some.injEq] at heq
    simp [Shift.mk.injEq, heq]

/-- Witness for C5 at the spec's store: one Shift on 2024-06-01. -/
theorem load_save_roundtrip_witness :
    loadShifts (.json (jsonOfShifts
        [{ date := 1717200000000, pediatricAvailable := true, adultAvailable := false }])) =
      ([{ date := some 1717200000000, pediatricAvailable := true, adultAvailable := false }],
       false) :=
  (load_save_roundtrip
      [{ date := 1717200000000, pediatricAvailable := true, adultAvailable := false }]
      (by decide)).1

/-- Counterexample to **C9** as stated: the persisted JSON value
`[5]` cannot be the serialization of any Shift collection, yet loading
it neither logs an error nor leaves the collection empty — the loader
validates nothing inside a JSON array and accepts one junk entry (an
Invalid Date with both flags falsy). -/
theorem loadShifts_claim_counterexample :
    (∀ shifts : List Shift, jsonOfShifts shifts ≠ .arr [.num 5]) ∧
    (loadShifts (.json (.arr [.num 5]))).1 =
      [{ date := none, pediatricAvailable := false, adultAvailable := false }] ∧
    (loadShifts (.json (.arr [.num 5]))).2 = false := by
  refine ⟨?_, rfl, rfl⟩
  intro shifts h
  cases shifts with
  | nil => simp [jsonOfShifts] at h
  | cons s t => simp [jsonOfShifts] at h

/-- **C9 (amended).**  The load path fails soft exactly on the
deserialization failures that throw: a string `JSON.parse` rejects, or
a parsed value that is not an array (no `.map`), each logged and
leaving the collection empty; a parsed JSON array, however, is
accepted element-wise without validation, so non-Shift elements load as
junk entries instead of emptying the collection. -/
theorem loadShifts_malformed (sv : StoredValue) :
    (sv = .malformed → loadShifts sv = ([], true)) ∧
    (∀ j, sv = .json j → (∀ elems, j ≠ .arr elems) → loadShifts sv = ([], true)) ∧
    (∀ elems, sv = .json (.arr elems) →
      loadShifts sv = (elems.map decodeShiftJson, false)) := by
  refine ⟨?_, ?_, ?_⟩
  · intro h; subst h; rfl
  · intro j hj hne
    subst hj
    cases j with
    | arr elems => exact absurd rfl (hne elems)
    | str s => rfl
    | num n => rfl
    | bool b => rfl
    | null => rfl
    | obj fields => rfl
  · intro elems h; subst h; rfl

/-- Witness for C9 (amended): unparseable persisted text loads as the
empty collection with the error logged. -/
theorem loadShifts_malformed_witness : loadShifts .malformed = ([], true) :=
  (loadShifts_malformed .malformed).1 rfl

/-! ## Form validation -/

theorem submitBlocked_of_errors (f : RawForm) (h : formSchemaCheck f ≠ noFieldErrors) :
    submitBlocked f = true := by
  unfold submitBlocked
  cases ho : handleSubmit f with
  | blocked e => rfl
  | attempted v =>
      exfalso
      unfold handleSubmit at ho
      cases htp : toProviderType f.providerType with
      | none =>
          rw [htp] at ho
          exact SubmitOutcome.noConfusion ho
      | some pt =>
          rw [htp] at ho
          by_cases he : formSchemaCheck f = noFieldErrors
          · exact h he
          · simp only [if_neg he] at ho
            exact SubmitOutcome.noConfusion ho

/-- **C8.**  Each of the four validation rules rejects its bad input
with a field-level error and blocks submission (no POST is attempted):
a name shorter than 2 characters, an email failing the email-syntax
check, an empty `shiftDates` selection, and a missing `providerType`. -/
theorem formSchema_rejects (f : RawForm) :
    (f.name.length < 2 →
      (formSchemaCheck f).nameError.isSome = true ∧ submitBlocked f = true) ∧
    (isEmail f.email = false →
      (formSchemaCheck f).emailError.isSome = true ∧ submitBlocked f = true) ∧
    (f.shiftDates = [] →
      (formSchemaCheck f).shiftDatesError.isSome = true ∧ submitBlocked f = true) ∧
    (f.providerType = none →
      (formSchemaCheck f).providerTypeError.isSome = true ∧ submitBlocked f = true) := by
  refine ⟨?_, ?_, ?_, ?_⟩
  · intro hc
    have h1 : (formSchemaCheck f).nameError = some "Name must be at least 2 characters." := by
      simp [formSchemaCheck, hc]
    refine ⟨by simp [h1], submitBlocked_of_errors f ?_⟩
    intro heq
    have h2 := congrArg FieldErrors.nameError heq
    rw [h1] at h2
    simp [noFieldErrors] at h2
  · intro hc
    have h1 : (formSchemaCheck f).emailError = some "Please enter a valid email address." := by
      simp [formSchemaCheck, hc]
    refine ⟨by simp [h1], submitBlocked_of_errors f ?_⟩
    intro heq
    have h2 := congrArg FieldErrors.emailError heq
    rw [h1] at h2
    simp [noFieldErrors] at h2
  · intro hc
    have h1 : (formSchemaCheck f).shiftDatesError =
        some "Please select at least one shift date." := by
      simp [formSchemaCheck, hc]
    refine ⟨by simp [h1], submitBlocked_of_errors f ?_⟩
    intro heq
    have h2 := congrArg FieldErrors.shiftDatesError heq
    rw [h1] at h2
    simp [noFieldErrors] at h2
  · intro hc
    have h1 : (formSchemaCheck f).providerTypeError = some "Please select a provider type." := by
      simp [formSchemaCheck, hc]
    refine ⟨by simp [h1], submitBlocked_of_errors f ?_⟩
    intro heq
    have h2 := congrArg FieldErrors.providerTypeError heq
    rw [h1] at h2
    simp [noFieldErrors] at h2

/-- Witness for C8 at the spec's bad inputs: name `"A"`, email
`"not-an-email"`, an empty `shiftDates`, and no provider type, all on
one raw form. -/
theorem formSchema_rejects_witness :
    ((formSchemaCheck invalidRawForm).nameError.isSome = true ∧
      submitBlocked invalidRawForm = true) ∧
    ((formSchemaCheck invalidRawForm).emailError.isSome = true ∧
      submitBlocked invalidRawForm = true) ∧
    ((formSchemaCheck invalidRawForm).shiftDatesError.isSome = true ∧
      submitBlocked invalidRawForm = true) ∧
    ((formSchemaCheck invalidRawForm).providerTypeError.isSome = true ∧
      submitBlocked invalidRawForm = true) :=
  ⟨(formSchema_rejects invalidRawForm).1 (by decide),
   (formSchema_rejects invalidRawForm).2.1 (by decide),
   (formSchema_rejects invalidRawForm).2.2.1 rfl,
   (formSchema_rejects invalidRawForm).2.2.2 rfl⟩
